import Mathlib

/-!
Shallow embedding of the evalPy benchmark-evaluation core
(src/utils/filter_by_composition.py, src/utils/res_file.py,
src/utils/statistics.py) together with theorems settling the
specification claims about it.

Python floats are modelled as exact rationals; IEEE special values
(inf, nan) and unicode digits are outside the model.  Python
exceptions are modelled with Except String.  String primitives
(strip, split, startswith, in) are re-implemented structurally over
character lists so that all definitions evaluate inside the kernel.
-/

/-- Opening curly brace character (written via its code point so that no
brace appears inside a character literal). -/
def lbrace : Char := Char.ofNat 123

/-- Closing curly brace character. -/
def rbrace : Char := Char.ofNat 125

/-- Whitespace test used by Python str.strip() and str.split(),
restricted to the ASCII whitespace appearing in the data files. -/
def isPyWs (c : Char) : Bool := c.isWhitespace

/-- Strip leading and trailing whitespace from a character list. -/
def stripChars (cs : List Char) : List Char :=
  ((cs.dropWhile isPyWs).reverse.dropWhile isPyWs).reverse

/-- Python str.strip() with no arguments. -/
def pyStrip (s : String) : String := String.mk (stripChars s.toList)

/-- Accumulator loop for whitespace tokenisation: builds the current token
in reverse and emits it at each whitespace run or at the end. -/
def splitWsAux : List Char → List Char → List (List Char)
  | [], acc => if acc.isEmpty then [] else [acc.reverse]
  | c :: cs, acc =>
    if isPyWs c then
      if acc.isEmpty then splitWsAux cs [] else acc.reverse :: splitWsAux cs []
    else splitWsAux cs (c :: acc)

/-- Python str.split() with no arguments: split on whitespace runs,
discarding empty pieces. -/
def pySplitWs (s : String) : List String :=
  (splitWsAux s.toList []).map String.mk

/-- Accumulator loop for splitting on a single separator character. -/
def splitOnCharAux (sep : Char) : List Char → List Char → List (List Char)
  | [], acc => [acc.reverse]
  | c :: cs, acc =>
    if c = sep then acc.reverse :: splitOnCharAux sep cs []
    else splitOnCharAux sep cs (c :: acc)

/-- Python str.split(sep) for a one-character separator: empty pieces are
kept, and the empty string yields one empty piece. -/
def pySplitOnChar (sep : Char) (s : String) : List String :=
  (splitOnCharAux sep s.toList []).map String.mk

/-- Python str.startswith(pat). -/
def startsWithStr (pat s : String) : Bool :=
  pat.toList.isPrefixOf s.toList

/-- Python membership test of a single character in a string. -/
def containsChar (s : String) (c : Char) : Bool := s.toList.contains c

/-- Tail of a Python digit group after its first digit: digits with single
underscores allowed strictly between digits. -/
def pyDigitsTail : List Char → Bool
  | [] => true
  | '_' :: rest =>
    match rest with
    | [] => false
    | d :: rest2 => d.isDigit && pyDigitsTail rest2
  | c :: rest => c.isDigit && pyDigitsTail rest

/-- A valid Python digit group: nonempty, starts with a digit, underscores
only between digits (as accepted by int() and float() literals). -/
def pyDigits : List Char → Bool
  | [] => false
  | c :: rest => c.isDigit && pyDigitsTail rest

/-- Numeric value of a list of decimal digit characters. -/
def digitsVal (cs : List Char) : ℕ :=
  cs.foldl (fun acc c => 10 * acc + (c.toNat - '0'.toNat)) 0

/-- Strip one optional leading sign; returns (isNegative, remainder). -/
def parseSign : List Char → Bool × List Char
  | '+' :: rest => (false, rest)
  | '-' :: rest => (true, rest)
  | cs => (false, cs)

/-- Python int(s): surrounding whitespace stripped, optional sign, then a
digit group (underscores between digits allowed); everything else raises. -/
def pyInt (s : String) : Except String Int :=
  let cs := stripChars s.toList
  let (neg, cs1) := parseSign cs
  if pyDigits cs1 then
    let v : Int := (digitsVal (cs1.filter Char.isDigit) : Int)
    Except.ok (if neg then -v else v)
  else Except.error ("invalid literal for int with base 10: " ++ s)

/-- Characters allowed inside a digit group scan. -/
def isDigitOrUnderscore (c : Char) : Bool := c.isDigit || c = '_'

/-- Fractional value of a digit group read after the decimal point. -/
def fracVal (cs : List Char) : ℚ :=
  (digitsVal (cs.filter Char.isDigit) : ℚ) / (10 : ℚ) ^ (cs.filter Char.isDigit).length

/-- Mantissa of a Python float literal: digits, optionally a decimal point
with digits on at least one side.  Returns the value and the remainder. -/
def pyFloatMantissa (cs1 : List Char) : Option (ℚ × List Char) :=
  let ip := cs1.takeWhile isDigitOrUnderscore
  let rest1 := cs1.drop ip.length
  match rest1 with
  | '.' :: rest2 =>
    let fp := rest2.takeWhile isDigitOrUnderscore
    let rest3 := rest2.drop fp.length
    if (ip.isEmpty || pyDigits ip) && (fp.isEmpty || pyDigits fp)
        && !(ip.isEmpty && fp.isEmpty) then
      some ((digitsVal (ip.filter Char.isDigit) : ℚ) + fracVal fp, rest3)
    else none
  | _ => if pyDigits ip then some ((digitsVal (ip.filter Char.isDigit) : ℚ), rest1) else none

/-- Optional exponent part of a Python float literal applied to mantissa m;
the remainder after the exponent must be empty. -/
def pyFloatExp (m : ℚ) (rest : List Char) : Option ℚ :=
  match rest with
  | [] => some m
  | c :: rest2 =>
    if c = 'e' || c = 'E' then
      let (negE, rest3) := parseSign rest2
      let ep := rest3.takeWhile isDigitOrUnderscore
      let rest4 := rest3.drop ep.length
      if pyDigits ep && rest4.isEmpty then
        let e : Int := (digitsVal (ep.filter Char.isDigit) : Int)
        some (m * (10 : ℚ) ^ (if negE then -e else e))
      else none
    else none

/-- Python float(s) restricted to finite decimal literals, valued in ℚ.
inf and nan are outside this rational model. -/
def pyFloat (s : String) : Option ℚ :=
  let cs := stripChars s.toList
  let (neg, cs1) := parseSign cs
  match pyFloatMantissa cs1 with
  | none => none
  | some (m, rest) =>
    match pyFloatExp m rest with
    | none => none
    | some v => some (if neg then -v else v)

/-- Python range(a, b) over the integers, as a list. -/
def rangeZ (a b : Int) : List Int :=
  (List.range (b - a).toNat).map (fun k => a + (k : Int))

/-- Insert into a ≤-sorted list, keeping it sorted. -/
def insertSorted (x : Int) : List Int → List Int
  | [] => [x]
  | y :: ys => if x ≤ y then x :: y :: ys else y :: insertSorted x ys

/-- Ascending insertion sort on integers. -/
def sortZ (l : List Int) : List Int := l.foldr insertSorted []

/-- Keep one copy of every value of the list (the last one). -/
def dedupZ : List Int → List Int
  | [] => []
  | x :: xs => if xs.contains x then dedupZ xs else x :: dedupZ xs

/-- Python sorted(list(set(l))): the distinct values in ascending order. -/
def sortedDedup (l : List Int) : List Int := sortZ (dedupZ l)

/-- One comma-separated item of the allowed-elements string, from
filter_by_composition.parse_element_list: either a single 1-based number
(converted to 0-based by subtracting 1) or a range a-b where a wildcard *
stands for 0 as start and 103 as end (both endpoints * is rejected),
expanded as range(start - 1, end). -/
def parseItem (item : String) : Except String (List Int) :=
  if containsChar item '-' then
    match pySplitOnChar '-' item with
    | [s, e] =>
      if e = "*" && s = "*" then
        Except.error "Both start and end cannot be wildcard *."
      else do
        let startv : Int ← if s = "*" then pure 0 else pyInt s
        let endv : Int ← if e = "*" then pure 103 else pyInt e
        Except.ok (rangeZ (startv - 1) endv)
    | _ => Except.error ("too many values to unpack: " ++ item)
  else do
    let v ← pyInt item
    Except.ok [v - 1]

/-- Embedding of filter_by_composition.parse_element_list: split the input
on commas, strip each item, expand every item, collect the results into a
set and return it as a sorted list.  The empty string yields the empty
list. -/
def parse_element_list (allowed_elements : String) : Except String (List Int) :=
  if allowed_elements = "" then Except.ok []
  else do
    let elements := (pySplitOnChar ',' allowed_elements).map pyStrip
    let expanded ← elements.mapM parseItem
    Except.ok (sortedDedup expanded.flatten)

/-- Character that is neither kind of brace. -/
def notBrace (c : Char) : Bool := c ≠ lbrace && c ≠ rbrace

/-- First regex of res_file.extract_species_from_path, anchored at the
start of the string: a nonempty run of non-brace characters, an opening
brace, a nonempty run of characters other than the closing brace, the
closing brace, then a nonempty run of non-slash characters.  Greedy
matching makes every group the maximal such run.  Returns the leading
run, the species group and the trailing run. -/
def matchBaseBeforeAndAfter (cs : List Char) : Option (List Char × List Char × List Char) :=
  let p := cs.takeWhile notBrace
  if p.isEmpty then none
  else
    match cs.drop p.length with
    | b :: rest =>
      if b = lbrace then
        let sp := rest.takeWhile (fun c => c ≠ rbrace)
        if sp.isEmpty then none
        else
          match rest.drop sp.length with
          | b2 :: rest2 =>
            if b2 = rbrace then
              let suf := rest2.takeWhile (fun c => c ≠ '/')
              if suf.isEmpty then none else some (p, sp, suf)
            else none
          | [] => none
      else none
    | [] => none

/-- Second regex of extract_species_from_path: a nonempty run of
non-brace characters, an optional slash (vacuous, since the greedy
non-brace run already swallows any slash), an opening brace, a nonempty
species group, the closing brace.  Trailing content is unconstrained. -/
def matchBaseBefore (cs : List Char) : Option (List Char × List Char) :=
  let p := cs.takeWhile notBrace
  if p.isEmpty then none
  else
    match cs.drop p.length with
    | b :: rest =>
      if b = lbrace then
        let sp := rest.takeWhile (fun c => c ≠ rbrace)
        if sp.isEmpty then none
        else
          match rest.drop sp.length with
          | b2 :: _ => if b2 = rbrace then some (p, sp) else none
          | [] => none
      else none
    | [] => none

/-- Third regex of extract_species_from_path: an opening brace at the
start, a nonempty species group, the closing brace, then a nonempty run
of non-slash characters. -/
def matchBaseAfter (cs : List Char) : Option (List Char × List Char) :=
  match cs with
  | b :: rest =>
    if b = lbrace then
      let sp := rest.takeWhile (fun c => c ≠ rbrace)
      if sp.isEmpty then none
      else
        match rest.drop sp.length with
        | b2 :: rest2 =>
          if b2 = rbrace then
            let suf := rest2.takeWhile (fun c => c ≠ '/')
            if suf.isEmpty then none else some (sp, suf)
          else none
        | [] => none
    else none
  | [] => none

/-- Fourth regex of extract_species_from_path: an opening brace at the
start, a nonempty species group, the closing brace. -/
def matchNoBase (cs : List Char) : Option (List Char) :=
  match cs with
  | b :: rest =>
    if b = lbrace then
      let sp := rest.takeWhile (fun c => c ≠ rbrace)
      if sp.isEmpty then none
      else
        match rest.drop sp.length with
        | b2 :: _ => if b2 = rbrace then some sp else none
        | [] => none
    else none
  | [] => none

/-- Split a species group on commas and strip each piece, as the source
does with a comprehension over species.split(",") using s.strip(). -/
def splitSpeciesGroup (sp : List Char) : List String :=
  (pySplitOnChar ',' (String.mk sp)).map pyStrip

/-- Embedding of res_file.extract_species_from_path: the four anchored
patterns are tried in priority order and the first match wins; the
species group is split on commas, each item is stripped, and the leading
and trailing runs are glued around every item.  When no pattern matches
the operation raises a ValueError naming the token. -/
def extract_species_from_path (path : String) : Except String (List String) :=
  let cs := path.toList
  match matchBaseBeforeAndAfter cs with
  | some (p, sp, suf) =>
    Except.ok ((splitSpeciesGroup sp).map
      (fun s => String.mk p ++ s ++ String.mk suf))
  | none =>
    match matchBaseBefore cs with
    | some (p, sp) =>
      Except.ok ((splitSpeciesGroup sp).map (fun s => String.mk p ++ s))
    | none =>
      match matchBaseAfter cs with
      | some (sp, suf) =>
        Except.ok ((splitSpeciesGroup sp).map (fun s => s ++ String.mk suf))
      | none =>
        match matchNoBase cs with
        | some sp => Except.ok (splitSpeciesGroup sp)
        | none =>
          Except.error ("Invalid format for species extraction: " ++ path)

/-- A line is a reaction line when its whitespace tokens contain a
standalone x and the first token starts with $tmer or tmer
(res_file.filter_res_file, the tmer-entry test). -/
def isReactionLine (tokens : List String) : Bool :=
  tokens.contains "x" &&
    (match tokens with
     | [] => false
     | t0 :: _ => startsWithStr "$tmer" t0 || startsWithStr "tmer" t0)

/-- Species-related tokens of a reaction line: every token after the
leading marker up to, and excluding, the first x token. -/
def speciesTokens (tokens : List String) : List String :=
  tokens.tail.takeWhile (fun t => t ≠ "x")

/-- Stoichiometry tokens of a reaction line: the tokens after the first x
token, stopping at the first token starting with $w. -/
def stoichTokens (tokens : List String) : List String :=
  (tokens.drop (tokens.indexOf "x" + 1)).takeWhile
    (fun t => !(startsWithStr "$w" t))

/-- The relevant species-path component of one species token: the token is
split on slashes, each segment is stripped, and the last segment that is
nonempty and does not start with a dollar sign wins; the loop in the
source overwrites token_to_search, so the result is the last qualifying
segment, or the empty string when none qualifies. -/
def lastRelevantSegment (token : String) : String :=
  ((pySplitOnChar '/' token).map pyStrip).foldl
    (fun acc seg => if startsWithStr "$" seg || seg = "" then acc else seg) ""

/-- Build the species list of a reaction line from its species tokens:
tokens whose relevant component is empty are skipped, components holding
both braces are expanded via extract_species_from_path (whose ValueError
propagates), and other components are taken literally, in token order. -/
def buildSpecies : List String → Except String (List String)
  | [] => Except.ok []
  | t :: ts =>
    let comp := lastRelevantSegment t
    if comp = "" then buildSpecies ts
    else if containsChar comp lbrace && containsChar comp rbrace then do
      let ex ← extract_species_from_path comp
      let rest ← buildSpecies ts
      Except.ok (ex ++ rest)
    else do
      let rest ← buildSpecies ts
      Except.ok (comp :: rest)

/-- Data extracted from one line by res_file.filter_res_file before the
validity decision: none for blank lines, comment lines and non-reaction
lines (which pass through), and some (species, stoichiometry) for a
reaction line.  Stoichiometry parsing runs before species building, as in
the source, and either step may raise. -/
def reactionData (line : String) : Except String (Option (List String × List Int)) :=
  let stripped := pyStrip line
  if stripped = "" || startsWithStr "#" stripped then Except.ok none
  else
    let tokens := pySplitWs stripped
    if isReactionLine tokens then do
      let st ← (stoichTokens tokens).mapM pyInt
      let sp ← buildSpecies (speciesTokens tokens)
      Except.ok (some (sp, st))
    else Except.ok none

/-- Per-line verdict of the reaction-file filter. -/
inductive ProcLine where
  | keepPlain : ProcLine
  | keepReaction : List String → List Int → ProcLine
  | drop : ProcLine
deriving DecidableEq

/-- One loop iteration of res_file.filter_res_file: non-reaction lines are
kept verbatim; a reaction line is kept with its species and stoichiometry
exactly when every species name is a member of valid_species (the source
checks all names of set(species), which is the same condition), and
dropped otherwise. -/
def processLine (valid_species : List String) (line : String) : Except String ProcLine := do
  match ← reactionData line with
  | none => Except.ok ProcLine.keepPlain
  | some (sp, st) =>
    if ∀ s ∈ sp, s ∈ valid_species then Except.ok (ProcLine.keepReaction sp st)
    else Except.ok ProcLine.drop

/-- Embedding of res_file.filter_res_file: fold processLine over the
lines, collecting kept lines, per-reaction species lists and
stoichiometry lists; the first raising line aborts the whole filter. -/
def filter_res_file : List String → List String →
    Except String (List String × List (List String) × List (List Int))
  | [], _ => Except.ok ([], [], [])
  | line :: rest, valid_species => do
    let pl ← processLine valid_species line
    let t ← filter_res_file rest valid_species
    match pl with
    | ProcLine.keepPlain => Except.ok (line :: t.1, t.2.1, t.2.2)
    | ProcLine.keepReaction sp st => Except.ok (line :: t.1, sp :: t.2.1, st :: t.2.2)
    | ProcLine.drop => Except.ok t

/-- Outcome of one non-blank line of res_file.parse_res_file, before the
strict/lenient policy is applied: with at least 8 tokens, the reference
value is token 7 and the computed value is token 5, both parsed as
floats; a failed conversion or fewer than 8 tokens is an error, and a
computed/reference gap above 750 is an error too (in the source the
strict-mode tolerance raise is caught by the conversion handler and
re-raised with the conversion message, which this merges faithfully). -/
def lineOutcome (t : String) : Except String (ℚ × ℚ) :=
  let tokens := pySplitWs t
  if 8 ≤ tokens.length then
    match pyFloat (pyStrip (tokens.getD 7 "")), pyFloat (pyStrip (tokens.getD 5 "")) with
    | some ref_energy, some comp_energy =>
      if 750 < |comp_energy - ref_energy| then
        Except.error ("Conversion to floats not possible for line: " ++ t ++ ". Aborting.")
      else Except.ok (ref_energy, comp_energy)
    | _, _ =>
      Except.error ("Conversion to floats not possible for line: " ++ t ++ ". Aborting.")
  else Except.error ("Not enough tokens in line: " ++ t ++ ". Aborting.")

/-- Loop of res_file.parse_res_file over the remaining lines: blank lines
are passed over without touching the position counter; every other line
advances the counter, and its outcome is either appended as a row, or
skipped (non-strict) respectively raised (strict mode). -/
def parseLinesAux (strictmode : Bool) : List String → ℕ → Except String (List (ℕ × ℚ × ℚ))
  | [], _ => Except.ok []
  | l :: ls, index =>
    let t := pyStrip l
    if t = "" then parseLinesAux strictmode ls index
    else
      match lineOutcome t with
      | Except.ok (ref_energy, comp_energy) =>
        (parseLinesAux strictmode ls (index + 1)).map
          (fun rows => (index, ref_energy, comp_energy) :: rows)
      | Except.error msg =>
        if strictmode then Except.error msg
        else parseLinesAux strictmode ls (index + 1)

/-- Embedding of res_file.parse_res_file: split the content into lines and
run the indexed loop from position 0.  The verbosity argument only gates
printing in the source and does not affect the returned value. -/
def parse_res_file (res_file_content : String) (strictmode : Bool) (verbosity : ℕ) :
    Except String (List (ℕ × ℚ × ℚ)) :=
  parseLinesAux strictmode (pySplitOnChar '\n' res_file_content) 0

/-- The row a non-blank line contributes in non-strict mode: some
(reference, computed) when it is kept, none when it is skipped. -/
def lineRow (l : String) : Option (ℚ × ℚ) :=
  match lineOutcome (pyStrip l) with
  | Except.ok rc => some rc
  | Except.error _ => none

/-- Attach the position index of an enumerated line to its row. -/
def rowEntry (p : ℕ × String) : Option (ℕ × ℚ × ℚ) :=
  (lineRow p.2).map (fun rc => (p.1, rc.1, rc.2))

/-- A molecule as seen by the composition filter: only the fields the
filter reads (utils.molecule.Molecule resolves them lazily, but the
filter observes plain values). -/
structure Molecule where
  name : String
  num_atoms : ℕ
  ati : List Int
  charge : Int
  uhf : ℕ
deriving DecidableEq

/-- Constraint configuration from filter_by_composition.
MoleculeConstraints; absent bounds are none. -/
structure MoleculeConstraints where
  allowed_elements : List Int
  required_elements : List (List Int)
  min_charge : Option Int
  max_charge : Option Int
  max_uhf : Option ℕ
  min_num_atoms : Option ℕ
  max_num_atoms : Option ℕ

/-- Embedding of filter_by_composition.molecule_has_required_elements: a
molecule passes when at least one required-element group is fully
contained in its atom element indices (OR across groups, AND within a
group).  The source materialises boolean lists and applies all/any,
which this folds directly; verbosity only gates printing. -/
def molecule_has_required_elements (mol : Molecule) (required_elements : List (List Int))
    (verbosity : ℕ) : Bool :=
  required_elements.any (fun req => req.all (fun ati => mol.ati.contains ati))

/-- The per-molecule predicate of filter_by_composition.
check_molecule_composition, with the continue statements of the loop
folded into one conjunction in source order: atom-count bounds, allowed
elements (empty list means unrestricted), required-element groups,
charge bounds, spin bound. -/
def molPasses (verbosity : ℕ) (molecule_constraints : MoleculeConstraints)
    (mol : Molecule) : Bool :=
  (match molecule_constraints.min_num_atoms with
   | some m => !(decide (mol.num_atoms < m))
   | none => true) &&
  (match molecule_constraints.max_num_atoms with
   | some m => !(decide (m < mol.num_atoms))
   | none => true) &&
  (!molecule_constraints.allowed_elements.isEmpty →
      mol.ati.all (fun ati => molecule_constraints.allowed_elements.contains ati) : Bool) &&
  (!molecule_constraints.required_elements.isEmpty →
      molecule_has_required_elements mol molecule_constraints.required_elements verbosity : Bool) &&
  (match molecule_constraints.min_charge with
   | some m => !(decide (mol.charge < m))
   | none => true) &&
  (match molecule_constraints.max_charge with
   | some m => !(decide (m < mol.charge))
   | none => true) &&
  (match molecule_constraints.max_uhf with
   | some m => !(decide (m < mol.uhf))
   | none => true)

/-- Embedding of filter_by_composition.check_molecule_composition: keep
exactly the molecules passing every constraint, in order.  tqdm and all
printing are progress reporting only. -/
def check_molecule_composition (mols : List Molecule) (verbosity : ℕ)
    (molecule_constraints : MoleculeConstraints) : List Molecule :=
  mols.filter (molPasses verbosity molecule_constraints)

/-- One row of the benchmark dataframe as seen by the statistics reducer:
only the two numeric columns are read. -/
structure DataRow where
  ReferenceValue : ℚ
  MethodValue : ℚ

/-- numpy mean over a series without NaNs: NaN (modelled as none) exactly
when the series is empty. -/
def npMean (l : List ℚ) : Option ℚ :=
  if l.isEmpty then none else some (l.sum / l.length)

/-- numpy/pandas max over a series without NaNs: NaN exactly when empty. -/
def npMax (l : List ℚ) : Option ℚ :=
  match l with
  | [] => none
  | x :: xs => some (xs.foldl max x)

/-- numpy/pandas min over a series without NaNs: NaN exactly when empty. -/
def npMin (l : List ℚ) : Option ℚ :=
  match l with
  | [] => none
  | x :: xs => some (xs.foldl min x)

/-- Sample variance with ddof = 1, the quantity under the square root in
np.std(errors, ddof=1): NaN (none) when the divisor n - 1 is zero or the
mean itself is NaN, i.e. whenever n ≤ 1. -/
def npVarDdof1 (l : List ℚ) : Option ℚ :=
  if l.length ≤ 1 then none
  else
    match npMean l with
    | none => none
    | some m => some ((l.map (fun x => (x - m) ^ 2)).sum / (l.length - 1 : ℕ))

/-- NaN-propagating subtraction on optional values. -/
def optSub (a b : Option ℚ) : Option ℚ :=
  match a, b with
  | some x, some y => some (x - y)
  | _, _ => none

/-- Result dictionary of statistics.statistical_measures.  STDDEV and RMSD
hold the quantity under the square root of the source's np.std and
np.sqrt(np.mean(errors**2)); the square root is omitted to stay in ℚ,
and it maps NaN to NaN, so a field is none exactly when the source value
is NaN. -/
structure ErrorSummary where
  N : ℕ
  MeanAbsRef : Option ℚ
  MAE : Option ℚ
  MSE : Option ℚ
  STDDEV : Option ℚ
  RMSD : Option ℚ
  MAX : Option ℚ
  MIN : Option ℚ
  ErrRange : Option ℚ

/-- Embedding of statistics.statistical_measures: per-row signed error is
MethodValue minus ReferenceValue; the reducer is total, returning NaN
(none) entries instead of raising on degenerate inputs, as numpy/pandas
reductions over an empty or length-one series do. -/
def statistical_measures (subset_data : List DataRow) : ErrorSummary :=
  let errors := subset_data.map (fun r => r.MethodValue - r.ReferenceValue)
  { N := subset_data.length
    MeanAbsRef := npMean (subset_data.map (fun r => |r.ReferenceValue|))
    MAE := npMean (errors.map (fun e => |e|))
    MSE := npMean errors
    STDDEV := npVarDdof1 errors
    RMSD := npMean (errors.map (fun e => e ^ 2))
    MAX := npMax errors
    MIN := npMin errors
    ErrRange := optSub (npMax errors) (npMin errors) }

/-- Bind on a successful Except value runs the continuation. -/
theorem bind_ok_eq {α β : Type} (a : α) (f : α → Except String β) :
    (Except.ok a : Except String α) >>= f = f a := rfl

/-- Bind on a raised Except value propagates the error. -/
theorem bind_error_eq {α β : Type} (e : String) (f : α → Except String β) :
    (Except.error e : Except String α) >>= f = Except.error e := rfl

/-- A successful run of the parse loop is exactly the filterMap of the
per-line rows over the non-blank lines enumerated from the start index:
blank lines are dropped before enumeration and every other line owns one
position, whether or not it contributes a row. -/
theorem parseLinesAux_ok_eq (strictmode : Bool) (ls : List String) :
    ∀ (index : ℕ) (rows : List (ℕ × ℚ × ℚ)),
      parseLinesAux strictmode ls index = Except.ok rows →
      rows = (List.enumFrom index (ls.filter (fun l => pyStrip l ≠ ""))).filterMap rowEntry := by
  induction ls with
  | nil =>
    intro index rows h
    simp [parseLinesAux] at h
    simp [h]
  | cons l ls ih =>
    intro index rows h
    by_cases hb : pyStrip l = ""
    · rw [parseLinesAux, if_pos hb] at h
      simpa [List.filter_cons, hb] using ih index rows h
    · rw [parseLinesAux, if_neg hb] at h
      cases ho : lineOutcome (pyStrip l) with
      | ok rc =>
        rw [ho] at h
        cases hrec : parseLinesAux strictmode ls (index + 1) with
        | error e => rw [hrec] at h; simp [Except.map] at h
        | ok rows' =>
          rw [hrec] at h
          simp only [Except.map] at h
          obtain ⟨rfl⟩ := Except.ok.inj h
          have hrow : rowEntry (index, l) = some (index, rc.1, rc.2) := by
            simp [rowEntry, lineRow, ho]
          simp [List.filter_cons, hb, List.enumFrom_cons, List.filterMap_cons, hrow,
            ih (index + 1) rows' hrec]
      | error msg =>
        rw [ho] at h
        cases strictmode with
        | true => simp at h
        | false =>
          have hrow : rowEntry (index, l) = none := by
            simp [rowEntry, lineRow, ho]
          simp [List.filter_cons, hb, List.enumFrom_cons, List.filterMap_cons, hrow,
            ih (index + 1) rows h]

/-- Every row produced from lines enumerated from i carries a position of
at least i. -/
theorem rowEntry_fst_le (ls : List String) :
    ∀ (i : ℕ) (a : ℕ × ℚ × ℚ), a ∈ (List.enumFrom i ls).filterMap rowEntry → i ≤ a.1 := by
  induction ls with
  | nil => intro i a ha; simp at ha
  | cons l ls ih =>
    intro i a ha
    rw [List.enumFrom_cons, List.filterMap_cons] at ha
    cases hro : rowEntry (i, l) with
    | none =>
      rw [hro] at ha
      exact Nat.le_of_succ_le (ih (i + 1) a ha)
    | some b =>
      rw [hro] at ha
      rcases List.mem_cons.mp ha with hab | ha2
      · have hb : b.1 = i := by
          cases hl : lineRow l <;> simp [rowEntry, hl] at hro
          subst hro; rfl
        subst hab
        exact Nat.le_of_eq hb.symm
      · exact Nat.le_of_succ_le (ih (i + 1) a ha2)

/-- The positions of the rows produced from enumerated lines are strictly
increasing. -/
theorem pairwise_rowEntry (ls : List String) :
    ∀ i : ℕ, List.Pairwise (fun a b : ℕ × ℚ × ℚ => a.1 < b.1)
      ((List.enumFrom i ls).filterMap rowEntry) := by
  induction ls with
  | nil => intro i; simp
  | cons l ls ih =>
    intro i
    rw [List.enumFrom_cons, List.filterMap_cons]
    cases hro : rowEntry (i, l) with
    | none => exact ih (i + 1)
    | some b =>
      refine List.Pairwise.cons ?_ (ih (i + 1))
      intro c hc
      have h1 : i + 1 ≤ c.1 := rowEntry_fst_le ls (i + 1) c hc
      have hb : b.1 = i := by
        cases hl : lineRow l <;> simp [rowEntry, hl] at hro
        subst hro; rfl
      omega

/-- C1. The spec states that the element selector on input *-3 yields the
0-based index set containing exactly 0, 1 and 2 and that no index below 0
ever appears in the output of parse_element_list; the code instead sets
the wildcard start to 0 and then still subtracts 1, producing
range(-1, 3), so the returned list contains the impossible element index
-1.  This theorem evaluates the code at the failing input. -/
theorem c1_wildcard_eval :
    parse_element_list "*-3" = Except.ok [-1, 0, 1, 2] := rfl

/-- C2, counterexample.  The claim says a malformed brace expression is
fatal only in strict mode and that in non-strict mode the reaction-file
filter skips the offending line and continues; but filter_res_file has
no mode parameter at all and the error raised by
extract_species_from_path propagates, so on a line whose species token
holds an empty brace pair the whole filter raises instead of returning
results for the remaining lines. -/
theorem c2_counterexample :
    filter_res_file ["tmer \x7b\x7d x 1", "tmer A x 1"] ["A"] =
      Except.error "Invalid format for species extraction: \x7b\x7d" := rfl

/-- C2, amended.  A malformed brace expression in a species token of a
reaction line is fatal unconditionally: whatever the valid-species set,
the error from species extraction aborts the whole filter, and no result
is produced for any line. -/
theorem c2_malformed_brace_fatal (valid : List String) (line : String)
    (rest : List String) (st : List Int) (msg : String)
    (h1 : pyStrip line ≠ "")
    (h2 : startsWithStr "#" (pyStrip line) = false)
    (h3 : isReactionLine (pySplitWs (pyStrip line)) = true)
    (h4 : (stoichTokens (pySplitWs (pyStrip line))).mapM pyInt = Except.ok st)
    (h5 : buildSpecies (speciesTokens (pySplitWs (pyStrip line))) = Except.error msg) :
    filter_res_file (line :: rest) valid = Except.error msg := by
  have hrd : reactionData line = Except.error msg := by
    unfold reactionData
    rw [if_neg (by simp [h1, h2]), if_pos h3]
    simp only [h4, bind_ok_eq, h5, bind_error_eq]
  have hpl : processLine valid line = Except.error msg := by
    unfold processLine
    simp only [hrd, bind_error_eq]
  simp only [filter_res_file, hpl, bind_error_eq]

/-- C2, witness: a reaction line with an empty brace pair aborts the
filter with the extraction error. -/
theorem c2_malformed_brace_fatal_witness :
    filter_res_file ["tmer \x7b\x7d x 1", "next"] ["A"] =
      Except.error "Invalid format for species extraction: \x7b\x7d" :=
  c2_malformed_brace_fatal ["A"] "tmer \x7b\x7d x 1" ["next"] [1]
    "Invalid format for species extraction: \x7b\x7d"
    (by decide) rfl rfl rfl rfl

/-- C3.  For a reaction line whose species and stoichiometry parse, the
line is kept together with its species list and stoichiometry list
exactly when every name in its species list belongs to the valid-species
set; when some name is not a member the entire line and both entries are
absent, so the kept results are exactly those of the remaining lines and
the kept line count is one lower than in the kept case. -/
theorem c3_keep_iff_valid (valid : List String) (line : String)
    (rest : List String) (species : List String) (stoich : List Int)
    (h : reactionData line = Except.ok (some (species, stoich))) :
    ((∀ s ∈ species, s ∈ valid) →
      filter_res_file (line :: rest) valid =
        (filter_res_file rest valid).map
          (fun t => (line :: t.1, species :: t.2.1, stoich :: t.2.2))) ∧
    (¬ (∀ s ∈ species, s ∈ valid) →
      filter_res_file (line :: rest) valid = filter_res_file rest valid) := by
  constructor
  · intro hall
    have hpl : processLine valid line =
        Except.ok (ProcLine.keepReaction species stoich) := by
      unfold processLine
      simp only [h, bind_ok_eq, if_pos hall]
    cases hrec : filter_res_file rest valid with
    | ok t => simp [filter_res_file, hpl, hrec, bind_ok_eq, Except.map]
    | error e => simp [filter_res_file, hpl, hrec, bind_ok_eq, bind_error_eq, Except.map]
  · intro hnot
    have hpl : processLine valid line = Except.ok ProcLine.drop := by
      unfold processLine
      simp only [h, bind_ok_eq, if_neg hnot]
    cases hrec : filter_res_file rest valid with
    | ok t => simp [filter_res_file, hpl, hrec, bind_ok_eq, Except.map]
    | error e => simp [filter_res_file, hpl, hrec, bind_ok_eq, bind_error_eq, Except.map]

/-- C3, witness: a reaction line over species B with valid set containing
B, together with the membership fact that triggers the keep branch. -/
theorem c3_keep_iff_valid_witness :
    (((∀ s ∈ ["B"], s ∈ ["B"]) →
      filter_res_file ["tmer A/B x 1 -2 $w1", "next"] ["B"] =
        (filter_res_file ["next"] ["B"]).map
          (fun t => ("tmer A/B x 1 -2 $w1" :: t.1, ["B"] :: t.2.1, [1, -2] :: t.2.2))) ∧
    (¬ (∀ s ∈ ["B"], s ∈ ["B"]) →
      filter_res_file ["tmer A/B x 1 -2 $w1", "next"] ["B"] =
        filter_res_file ["next"] ["B"])) ∧
    (∀ s ∈ ["B"], s ∈ ["B"]) := by
  refine ⟨c3_keep_iff_valid ["B"] "tmer A/B x 1 -2 $w1" ["next"] ["B"] [1, -2] rfl, ?_⟩
  decide

/-- C4.  A non-blank line with at least 8 tokens whose computed value
(token 5) and reference value (token 7) parse as floats produces no
output row when their absolute difference exceeds 750: in non-strict
mode the line is skipped and parsing continues with the remaining
lines, while in strict mode the parse raises; and when the difference is
at most 750 the line is kept as the row (index, reference, computed). -/
theorem c4_tolerance (l : String) (rest : List String) (c r : ℚ)
    (hnb : pyStrip l ≠ "")
    (hlen : 8 ≤ (pySplitWs (pyStrip l)).length)
    (hc : pyFloat (pyStrip ((pySplitWs (pyStrip l)).getD 5 "")) = some c)
    (hr : pyFloat (pyStrip ((pySplitWs (pyStrip l)).getD 7 "")) = some r) :
    (750 < |c - r| →
      lineRow l = none ∧
      parseLinesAux false (l :: rest) 0 = parseLinesAux false rest 1 ∧
      parseLinesAux true (l :: rest) 0 = Except.error
        ("Conversion to floats not possible for line: " ++ pyStrip l ++ ". Aborting.")) ∧
    (|c - r| ≤ 750 →
      lineRow l = some (r, c) ∧
      ∀ strictmode, parseLinesAux strictmode (l :: rest) 0 =
        (parseLinesAux strictmode rest 1).map (fun rows => (0, r, c) :: rows)) := by
  have hlo : lineOutcome (pyStrip l) =
      if 750 < |c - r| then
        Except.error ("Conversion to floats not possible for line: " ++ pyStrip l ++ ". Aborting.")
      else Except.ok (r, c) := by
    unfold lineOutcome
    rw [if_pos hlen, hr, hc]
  constructor
  · intro htol
    rw [if_pos htol] at hlo
    refine ⟨?_, ?_, ?_⟩
    · simp [lineRow, hlo]
    · rw [parseLinesAux, if_neg hnb, hlo]; exact rfl
    · rw [parseLinesAux, if_neg hnb, hlo]; exact rfl
  · intro hle
    rw [if_neg (not_lt.mpr hle)] at hlo
    refine ⟨by simp [lineRow, hlo], ?_⟩
    intro strictmode
    rw [parseLinesAux, if_neg hnb, hlo]

/-- C4, witness: a line whose computed and reference values differ by
exactly 1000 is skipped in non-strict mode and raises in strict mode,
and a line with difference one half is kept as a row. -/
theorem c4_tolerance_witness :
    lineRow "a b c d e 1000.0 g 0.0" = none ∧
    parseLinesAux false ["a b c d e 1000.0 g 0.0"] 0 = parseLinesAux false [] 1 ∧
    parseLinesAux true ["a b c d e 1000.0 g 0.0"] 0 =
      Except.error ("Conversion to floats not possible for line: " ++
        pyStrip "a b c d e 1000.0 g 0.0" ++ ". Aborting.") ∧
    lineRow "a b c d e 1.5 g 1.0" = some (1, 3/2) := by
  have hc1 : pyFloat (pyStrip ((pySplitWs
      (pyStrip "a b c d e 1000.0 g 0.0")).getD 5 "")) = some (1000 : ℚ) := by
    have h0 : pyFloat (pyStrip ((pySplitWs
        (pyStrip "a b c d e 1000.0 g 0.0")).getD 5 "")) =
        some (((1000 : ℕ) : ℚ) + ((0 : ℕ) : ℚ) / (10 : ℚ) ^ (1 : ℕ)) := rfl
    rw [h0]; norm_num
  have hr1 : pyFloat (pyStrip ((pySplitWs
      (pyStrip "a b c d e 1000.0 g 0.0")).getD 7 "")) = some (0 : ℚ) := by
    have h0 : pyFloat (pyStrip ((pySplitWs
        (pyStrip "a b c d e 1000.0 g 0.0")).getD 7 "")) =
        some (((0 : ℕ) : ℚ) + ((0 : ℕ) : ℚ) / (10 : ℚ) ^ (1 : ℕ)) := rfl
    rw [h0]; norm_num
  have hc2 : pyFloat (pyStrip ((pySplitWs
      (pyStrip "a b c d e 1.5 g 1.0")).getD 5 "")) = some ((3 : ℚ)/2) := by
    have h0 : pyFloat (pyStrip ((pySplitWs
        (pyStrip "a b c d e 1.5 g 1.0")).getD 5 "")) =
        some (((1 : ℕ) : ℚ) + ((5 : ℕ) : ℚ) / (10 : ℚ) ^ (1 : ℕ)) := rfl
    rw [h0]; norm_num
  have hr2 : pyFloat (pyStrip ((pySplitWs
      (pyStrip "a b c d e 1.5 g 1.0")).getD 7 "")) = some ((1 : ℚ)) := by
    have h0 : pyFloat (pyStrip ((pySplitWs
        (pyStrip "a b c d e 1.5 g 1.0")).getD 7 "")) =
        some (((1 : ℕ) : ℚ) + ((0 : ℕ) : ℚ) / (10 : ℚ) ^ (1 : ℕ)) := rfl
    rw [h0]; norm_num
  have htol : (750 : ℚ) < |(1000 : ℚ) - 0| := by
    rw [sub_zero, abs_of_nonneg (by norm_num : (0 : ℚ) ≤ 1000)]; norm_num
  have hle : |(3 : ℚ)/2 - 1| ≤ 750 := by
    rw [show (3 : ℚ)/2 - 1 = 1/2 by norm_num,
      abs_of_nonneg (by norm_num : (0 : ℚ) ≤ 1/2)]
    norm_num
  have h1 := (c4_tolerance "a b c d e 1000.0 g 0.0" [] 1000 0
    (by decide) (by decide) hc1 hr1).1 htol
  have h2 := (c4_tolerance "a b c d e 1.5 g 1.0" [] (3/2) 1
    (by decide) (by decide) hc2 hr2).2 hle
  exact ⟨h1.1, h1.2.1, h1.2.2, h2.1⟩

/-- C5.  On a successful parse, the rows are exactly the filterMap of the
per-line rows over the non-blank lines enumerated from 0: the position
attached to a row is the number of non-blank lines strictly preceding
its source line, skipped non-blank lines still advance the counter,
blank lines never consume an index, and consequently the indices are
strictly increasing. -/
theorem c5_position_index (res_file_content : String) (strictmode : Bool)
    (verbosity : ℕ) (rows : List (ℕ × ℚ × ℚ))
    (h : parse_res_file res_file_content strictmode verbosity = Except.ok rows) :
    rows = (List.enumFrom 0 ((pySplitOnChar '\n' res_file_content).filter
        (fun l => pyStrip l ≠ ""))).filterMap rowEntry ∧
    List.Pairwise (fun a b : ℕ × ℚ × ℚ => a.1 < b.1) rows := by
  have h1 := parseLinesAux_ok_eq strictmode (pySplitOnChar '\n' res_file_content) 0 rows h
  refine ⟨h1, ?_⟩
  rw [h1]
  exact pairwise_rowEntry _ 0

/-- C5, witness: a content whose three lines are a short line, a blank
line and a line with a non-numeric computed token parses successfully to
no rows, and the characterization holds at it. -/
theorem c5_position_index_witness :
    ([] : List (ℕ × ℚ × ℚ)) = (List.enumFrom 0
      (((pySplitOnChar '\n' "too short\n\na b c d e x g 1.0").filter
        (fun l => pyStrip l ≠ "")))).filterMap rowEntry ∧
    List.Pairwise (fun a b : ℕ × ℚ × ℚ => a.1 < b.1) ([] : List (ℕ × ℚ × ℚ)) :=
  c5_position_index "too short\n\na b c d e x g 1.0" false 2 [] rfl

/-- C6.  On the two rows with reference 1 and computed 3/2, and reference
2 and computed 1, the statistics reducer returns count 2, mean absolute
error 3/4, mean signed error -1/4, maximum signed error 1/2, minimum
signed error -1 and error range 3/2, with signed error computed minus
reference. -/
theorem c6_stats_example :
    (statistical_measures [⟨1, 3/2⟩, ⟨2, 1⟩]).N = 2 ∧
    (statistical_measures [⟨1, 3/2⟩, ⟨2, 1⟩]).MAE = some (3/4) ∧
    (statistical_measures [⟨1, 3/2⟩, ⟨2, 1⟩]).MSE = some (-(1/4)) ∧
    (statistical_measures [⟨1, 3/2⟩, ⟨2, 1⟩]).MAX = some (1/2) ∧
    (statistical_measures [⟨1, 3/2⟩, ⟨2, 1⟩]).MIN = some (-1) ∧
    (statistical_measures [⟨1, 3/2⟩, ⟨2, 1⟩]).ErrRange = some (3/2) := by
  have h1 : |(3/2 : ℚ) - 1| = 1/2 := by
    rw [show (3/2 : ℚ) - 1 = 1/2 by norm_num]
    exact abs_of_nonneg (by norm_num)
  have h2 : |(1 : ℚ) - 2| = 1 := by
    rw [show (1 : ℚ) - 2 = -1 by norm_num, abs_neg]
    exact abs_of_nonneg (by norm_num)
  have h3 : |(1 : ℚ)/2| = 1/2 := abs_of_nonneg (by norm_num)
  norm_num [statistical_measures, npMean, npMax, npMin, optSub, h1, h2, h3]

/-- C7.  The statistics reducer is a total function that never raises: on
the empty row table it returns count 0 with every derived statistic
degenerate (none, the model of NaN), and on any single-row table the
sample standard deviation with its N minus 1 divisor is likewise
degenerate rather than a failure. -/
theorem c7_degenerate :
    (statistical_measures []).N = 0 ∧
    (statistical_measures []).MeanAbsRef = none ∧
    (statistical_measures []).MAE = none ∧
    (statistical_measures []).MSE = none ∧
    (statistical_measures []).STDDEV = none ∧
    (statistical_measures []).RMSD = none ∧
    (statistical_measures []).MAX = none ∧
    (statistical_measures []).MIN = none ∧
    (statistical_measures []).ErrRange = none ∧
    (∀ r : DataRow, (statistical_measures [r]).STDDEV = none) := by
  refine ⟨rfl, rfl, rfl, rfl, rfl, rfl, rfl, rfl, rfl, ?_⟩
  intro r
  simp [statistical_measures, npVarDdof1]

/-- C8.  The molecule composition filter is idempotent: applying it to
its own output with the same constraints returns that output unchanged,
for every molecule list, verbosity and constraint configuration. -/
theorem c8_idempotent (mols : List Molecule) (verbosity : ℕ)
    (molecule_constraints : MoleculeConstraints) :
    check_molecule_composition
      (check_molecule_composition mols verbosity molecule_constraints)
      verbosity molecule_constraints =
    check_molecule_composition mols verbosity molecule_constraints := by
  simp [check_molecule_composition, List.filter_filter]

/-- C9.  On a successful filter run the species-list and stoichiometry
outputs have equal length and there is an in-order selection of the
input lines, one per output index, whose per-line verdict is exactly the
kept reaction with that species list and stoichiometry list, so entries
at each index come from the same kept line and appear in source order. -/
theorem c9_alignment (lines valid : List String) (res : List String)
    (sps : List (List String)) (sts : List (List Int))
    (h : filter_res_file lines valid = Except.ok (res, sps, sts)) :
    sps.length = sts.length ∧
    ∃ kept : List String, List.Sublist kept lines ∧
      kept.map (processLine valid) =
        (sps.zip sts).map (fun p => Except.ok (ProcLine.keepReaction p.1 p.2)) := by
  induction lines generalizing res sps sts with
  | nil =>
    simp [filter_res_file] at h
    obtain ⟨h1, h2, h3⟩ := h
    subst h1; subst h2; subst h3
    exact ⟨rfl, [], List.nil_sublist _, rfl⟩
  | cons l ls ih =>
    cases hpl : processLine valid l with
    | error e => simp [filter_res_file, hpl, bind_error_eq] at h
    | ok pl =>
      cases hrec : filter_res_file ls valid with
      | error e => simp [filter_res_file, hpl, hrec, bind_ok_eq, bind_error_eq] at h
      | ok t =>
        obtain ⟨r', sp', st'⟩ := t
        obtain ⟨hlen, kept, hsub, hmap⟩ := ih r' sp' st' hrec
        cases pl with
        | keepPlain =>
          simp [filter_res_file, hpl, hrec, bind_ok_eq] at h
          obtain ⟨h1, h2, h3⟩ := h
          subst h1; subst h2; subst h3
          exact ⟨hlen, kept, hsub.cons l, hmap⟩
        | keepReaction sp st =>
          simp [filter_res_file, hpl, hrec, bind_ok_eq] at h
          obtain ⟨h1, h2, h3⟩ := h
          subst h1; subst h2; subst h3
          refine ⟨by simp [hlen], l :: kept, hsub.cons₂ l, ?_⟩
          simp [hpl, hmap]
        | drop =>
          simp [filter_res_file, hpl, hrec, bind_ok_eq] at h
          obtain ⟨h1, h2, h3⟩ := h
          subst h1; subst h2; subst h3
          exact ⟨hlen, kept, hsub.cons l, hmap⟩

/-- C9, witness: a four-line input with a comment, a kept reaction, a
dropped reaction and a stray line, aligned with its single output
entry. -/
theorem c9_alignment_witness :
    ([["A"]] : List (List String)).length = ([[1]] : List (List Int)).length ∧
    ∃ kept : List String,
      List.Sublist kept ["# c", "tmer A x 1", "tmer B x 2", "stray"] ∧
      kept.map (processLine ["A"]) =
        (([["A"]] : List (List String)).zip ([[1]] : List (List Int))).map
          (fun p => Except.ok (ProcLine.keepReaction p.1 p.2)) :=
  c9_alignment ["# c", "tmer A x 1", "tmer B x 2", "stray"] ["A"]
    ["# c", "tmer A x 1", "stray"] [["A"]] [[1]] rfl

/-- C10.  On a reaction line with a stoichiometry token between x and the
first weight marker that is not a valid integer literal, the whole
filtering operation raises with the conversion error for every
valid-species set, in particular also when the species of the line are
not all valid, because stoichiometry parsing runs before the
species-validity check. -/
theorem c10_stoich_error_raises (valid : List String) (line : String)
    (rest : List String) (msg : String)
    (h1 : pyStrip line ≠ "")
    (h2 : startsWithStr "#" (pyStrip line) = false)
    (h3 : isReactionLine (pySplitWs (pyStrip line)) = true)
    (h4 : (stoichTokens (pySplitWs (pyStrip line))).mapM pyInt = Except.error msg) :
    filter_res_file (line :: rest) valid = Except.error msg := by
  have hrd : reactionData line = Except.error msg := by
    unfold reactionData
    rw [if_neg (by simp [h1, h2]), if_pos h3]
    simp only [h4, bind_error_eq]
  have hpl : processLine valid line = Except.error msg := by
    unfold processLine
    simp only [hrd, bind_error_eq]
  simp only [filter_res_file, hpl, bind_error_eq]

/-- C10, witness: the line tmer A x 1.5 raises the integer conversion
error even though its species A is not in the empty valid set. -/
theorem c10_stoich_error_raises_witness :
    filter_res_file ["tmer A x 1.5", "next"] [] =
      Except.error "invalid literal for int with base 10: 1.5" :=
  c10_stoich_error_raises [] "tmer A x 1.5" ["next"]
    "invalid literal for int with base 10: 1.5" (by decide) rfl rfl rfl
